import Mathlib

/-!
# Holo: strategy dispatch, script application, diff invocation and pacman metadata

A shallow embedding of

* `src/holo/files/apply_impl.go` (`GetApplyImpl`, `applyFile`, `applyScript`),
* `src/files/diff.go` (`getDiffBody` and its three call expressions),
* `src/holo-build/pacman/generator.go` (`fullVersionString`,
  `compilePackageRelations`).

Go strings are Lean `String`s, byte slices are lists of numbers, and a Go result
pair `(*T, error)` is a pair of options.  Everything the code reaches outside
the process (the file system, launching a program) is a field of `World`; the
programs launched are recorded in the outcome of each function so that "what was
executed, with which input" is a statement about a value.
-/

namespace Holo

/-! ## Data model -/

/-- A Go byte slice. -/
abbrev Bytes := List Nat

/-- A Go `error` value, by the way it came about.  `exitStatus` is the error of a
program that ran and exited non-zero, `launchFailure` that of a program that could
not be started, `ioFailure` any error of the file system, and `errorString` an
error built by `fmt.Errorf`. -/
inductive GoError where
  | exitStatus (code : Nat)
  | launchFailure (reason : String)
  | ioFailure (reason : String)
  | errorString (msg : String)
  deriving DecidableEq, Repr

/-- The method `err.Error()`: the message of the error. -/
def GoError.Error : GoError → String
  | .exitStatus code => "exit status " ++ toString code
  | .launchFailure reason => reason
  | .ioFailure reason => reason
  | .errorString msg => msg

/-- Modelled from the spec: the type `Report` of package `shared` (`common` in
`diff.go`), whose declaration is not among the sources.  It is a record
`{action, target}` that accumulates the diagnostics of one external action. -/
structure Report where
  Action : String
  Target : String
  Lines : List String
  deriving DecidableEq, Repr

/-- Modelled from the spec: the content variant of a file buffer, which is either
regular content (raw bytes) or a symlink (target path), never both. -/
inductive ContentKind where
  | content (bytes : Bytes)
  | symlink (target : String)
  deriving DecidableEq, Repr

/-- Modelled from the spec: the type `FileBuffer`, whose declaration is not among
the sources.  `apply_impl.go` reads its fields `Contents` and `BasePath`; the
metadata fields are those the spec lists. -/
structure FileBuffer where
  Path : String
  BasePath : String
  Mode : Nat
  OwnerUID : Nat
  OwnerGID : Nat
  Kind : ContentKind
  deriving DecidableEq, Repr

/-- The field `buffer.Contents`: the bytes of a regular buffer; a symlink buffer
has no materialised bytes. -/
def FileBuffer.Contents (b : FileBuffer) : Bytes :=
  match b.Kind with
  | .content bytes => bytes
  | .symlink _ => []

/-- Whether the buffer is symlink-valued. -/
def FileBuffer.IsSymlink (b : FileBuffer) : Bool :=
  match b.Kind with
  | .content _ => false
  | .symlink _ => true

/-- Modelled from the spec: the interface `RepoFile`, whose declaration is not
among the sources: a read-only view of one overlay, with its artifact path and
its declared application strategy (the methods `Path()` and
`ApplicationStrategy()` used by `apply_impl.go`). -/
structure RepoFile where
  Path : String
  ApplicationStrategy : String
  deriving DecidableEq, Repr

/-- One call of `ExecProgram(report, stdin, command, arguments...)`: the program
named, the arguments after it, and the bytes on its standard input. -/
structure Invocation where
  Stdin : Bytes
  Command : String
  Arguments : List String
  deriving DecidableEq, Repr

/-- What `ExecProgram` hands back: the captured standard output, the error (nil
when the program ran and exited zero), and the report it was given, with whatever
diagnostics it added. -/
structure ExecOutcome where
  Output : Bytes
  Err : Option GoError
  Report : Report
  deriving DecidableEq, Repr

/-- The environment of one run.  `ExecProgram` and `NewFileBuffer` are functions
of this repository that are not among the sources and that reach outside the
process; `followSymlink` is the file-system walk of `ResolveSymlink` and
`rewriteDiffHeader` the part of `getDiffBody` that follows the excerpt. -/
structure World where
  /-- The Go function `shared.ExecProgram(report, stdin, command, arguments...)`. -/
  ExecProgram : Report → Bytes → String → List String → ExecOutcome
  /-- The Go function `NewFileBuffer(path, basePath)`: a buffer read from the
  entity at `path`. -/
  NewFileBuffer : String → String → Option FileBuffer × Option GoError
  /-- Resolving a symlink target against a base path and re-reading the location
  found, through the whole chain. -/
  followSymlink : String → String → Except GoError FileBuffer
  /-- Rewriting the path lines of a unified-diff header to the reported path. -/
  rewriteDiffHeader : Bytes → String → Bytes

/-- Modelled from the spec: `NewFileBufferFromContents(contents, basePath)`, which
is not among the sources.  It wraps a byte payload as regular content and carries
the base path; the fields the spec does not mention for this constructor take
Go's zero value. -/
def NewFileBufferFromContents (contents : Bytes) (basePath : String) : FileBuffer :=
  { Path := "", BasePath := basePath, Mode := 0, OwnerUID := 0, OwnerGID := 0,
    Kind := .content contents }

/-- Modelled from the spec: the method `ResolveSymlink`, which is not among the
sources.  A regular buffer is returned unchanged; a symlink buffer is replaced by
the buffer found by resolving its target against its base path, and resolution
fails when the chain is too long or dangling. -/
def FileBuffer.ResolveSymlink (w : World) (b : FileBuffer) : Except GoError FileBuffer :=
  match b.Kind with
  | .content _ => .ok b
  | .symlink target => w.followSymlink b.BasePath target

/-- Calling `ExecProgram`: the outcome of the call, and the record of it. -/
def World.run (w : World) (report : Report) (stdin : Bytes) (command : String)
    (arguments : List String) : ExecOutcome × Invocation :=
  (w.ExecProgram report stdin command arguments,
    { Stdin := stdin, Command := command, Arguments := arguments })

/-! ## `apply_impl.go` -/

/-- The result `(*FileBuffer, error)` of an application step, together with what
the step did: the programs it executed, in order, and the report afterwards. -/
structure ApplyOutcome where
  Buffer : Option FileBuffer
  Err : Option GoError
  Executed : List Invocation
  Report : Report
  deriving DecidableEq, Repr

/-- The Go function `applyFile`: the buffer is replaced by the one read from the
repo file, keeping only the base path of the old buffer. -/
def applyFile (w : World) (repoFile : RepoFile) (buffer : FileBuffer) (report : Report) :
    ApplyOutcome :=
  let res := w.NewFileBuffer repoFile.Path buffer.BasePath
  { Buffer := res.1, Err := res.2, Executed := [], Report := report }

/-- The Go function `applyScript`: resolve the buffer, run the repo file with the
buffer's contents on standard input, and wrap its standard output. -/
def applyScript (w : World) (repoFile : RepoFile) (buffer : FileBuffer) (report : Report) :
    ApplyOutcome :=
  match buffer.ResolveSymlink w with
  | .error err => { Buffer := none, Err := some err, Executed := [], Report := report }
  | .ok buffer =>
    let run := w.run report buffer.Contents repoFile.Path []
    match run.1.Err with
    | some err =>
      { Buffer := none,
        Err := some (.errorString
          ("execution of " ++ repoFile.Path ++ " failed: " ++ err.Error)),
        Executed := [run.2], Report := run.1.Report }
    | none =>
      { Buffer := some (NewFileBufferFromContents run.1.Output buffer.BasePath),
        Err := none, Executed := [run.2], Report := run.1.Report }

/-- The Go type `ApplyImpl`. -/
abbrev ApplyImpl := FileBuffer → Report → ApplyOutcome

/-- The Go function `GetApplyImpl`: choose the implementation by the strategy
and bind it to the repo file. -/
def GetApplyImpl (w : World) (repoFile : RepoFile) : ApplyImpl :=
  let impl : RepoFile → FileBuffer → Report → ApplyOutcome :=
    if repoFile.ApplicationStrategy == "passthru" then applyScript w else applyFile w
  fun fb r => impl repoFile fb r

/-! ## `diff.go` -/

/-- Modelled from the spec: the method `PrintUnlessEmpty` of `Report`, which is
not among the sources: a report that carries no diagnostic renders nothing. -/
def Report.PrintUnlessEmpty (r : Report) : List Report :=
  if r.Lines.isEmpty then [] else [r]

/-- The value `[]byte` that a diff function returns to its caller, together with
what it did: the programs it executed and the reports it printed. -/
structure DiffOutcome where
  Body : Bytes
  Executed : List Invocation
  Printed : List Report
  deriving DecidableEq, Repr

/-- The Go function `getDiffBody`.  The error result of `ExecProgram` is bound to
the blank identifier; the lines after `PrintUnlessEmpty` are not in the excerpt
and are the world's `rewriteDiffHeader`. -/
def getDiffBody (w : World) (fromPath toPath reportedPath : String) : DiffOutcome :=
  let errorReport : Report := { Action := "diff", Target := toPath, Lines := [] }
  let run := w.run errorReport [] "diff" ["-u", fromPath, toPath]
  { Body := w.rewriteDiffHeader run.1.Output reportedPath,
    Executed := [run.2],
    Printed := run.1.Report.PrintUnlessEmpty }

/-- The expression `append(header, getDiffBody("/dev/null", path, reportedPath)...)`
of `diff.go`. -/
def diffOfCreatedFile (w : World) (header : Bytes) (path reportedPath : String) :
    DiffOutcome :=
  let d := getDiffBody w "/dev/null" path reportedPath
  { d with Body := header ++ d.Body }

/-- The expression `append(header, getDiffBody(path, "/dev/null", reportedPath)...)`
of `diff.go`. -/
def diffOfRemovedFile (w : World) (header : Bytes) (path reportedPath : String) :
    DiffOutcome :=
  let d := getDiffBody w path "/dev/null" reportedPath
  { d with Body := header ++ d.Body }

/-- Modelled from the spec: which sides of a comparison exist.  The code that
examines the two paths is not in the excerpt of `diff.go`. -/
inductive DiffSides where
  | fromMissing
  | toRemoved
  | bothPresent
  deriving DecidableEq, Repr

/-- Modelled from the spec: the selection among the three call expressions of
`diff.go`, whose enclosing function bodies are not in the excerpt.  A missing
"from" side is diffed against a null source, a removed "to" side against a null
destination, and otherwise the two paths are diffed. -/
def renderDiffBody (w : World) (sides : DiffSides) (header : Bytes)
    (fromPath toPath reportedPath : String) : DiffOutcome :=
  match sides with
  | .fromMissing => diffOfCreatedFile w header toPath reportedPath
  | .toRemoved => diffOfRemovedFile w header fromPath reportedPath
  | .bothPresent =>
    let diffBody := getDiffBody w fromPath toPath reportedPath
    { diffBody with Body := header ++ diffBody.Body }

/-! ## `generator.go` -/

/-- The scan of `strings.Replace(s, old, new, -1)` over the characters of `s`:
`skip` characters of a match just replaced are still to be passed over. -/
def replaceScan (old new : List Char) : Nat → List Char → List Char
  | _, [] => if old = [] then new else []
  | skip + 1, _ :: cs => replaceScan old new skip cs
  | 0, c :: cs =>
    if old = [] then new ++ c :: replaceScan old new 0 cs
    else if old.isPrefixOf (c :: cs) then new ++ replaceScan old new (old.length - 1) cs
    else c :: replaceScan old new 0 cs

/-- The Go library function `strings.Replace(s, old, new, -1)`: every
non-overlapping occurrence of `old`, from the left, is replaced by `new`. -/
def stringsReplaceAll (s old new : String) : String :=
  ⟨replaceScan old.data new.data 0 s.data⟩

/-- The Go library function `strings.Join(elems, sep)`. -/
def stringsJoin : List String → String → String
  | [], _ => ""
  | [a], _ => a
  | a :: b :: rest, sep => a ++ sep ++ stringsJoin (b :: rest) sep

/-- The verb `%d` of `fmt.Sprintf` at an integer: decimal digits, after a minus
sign when the number is negative. -/
def formatDecimal (n : Int) : String :=
  if n < 0 then "-" ++ ⟨Nat.toDigits 10 n.natAbs⟩ else ⟨Nat.toDigits 10 n.toNat⟩

/-- The type `common.VersionConstraint`, by the fields `generator.go` reads; its
declaration is not among the sources. -/
structure VersionConstraint where
  Relation : String
  Version : String
  deriving DecidableEq, Repr

/-- The type `common.PackageRelation`, by the fields `generator.go` reads; its
declaration is not among the sources. -/
structure PackageRelation where
  RelatedPackage : String
  Constraints : List VersionConstraint
  deriving DecidableEq, Repr

/-- The type `common.Package`, by the fields `fullVersionString` and the relation
lines of `writePKGINFO` read; its declaration is not among the sources. -/
structure Package where
  Name : String
  Version : String
  Release : Int
  Epoch : Int
  Replaces : List PackageRelation
  Conflicts : List PackageRelation
  Provides : List PackageRelation
  Requires : List PackageRelation
  deriving DecidableEq, Repr

/-- The Go function `fullVersionString`. -/
def fullVersionString (pkg : Package) : String :=
  let str := stringsReplaceAll pkg.Version "-" "_" ++ "-" ++ formatDecimal pkg.Release
  if pkg.Epoch > 0 then formatDecimal pkg.Epoch ++ ":" ++ str else str

/-- The inner loop of `compilePackageRelations`: one line is appended for each
constraint of the relation. -/
def appendConstraintLines (relType : String) (rel : PackageRelation) :
    List String → List VersionConstraint → List String
  | lines, [] => lines
  | lines, c :: cs =>
    appendConstraintLines relType rel
      (lines ++ [relType ++ " = " ++ rel.RelatedPackage ++ c.Relation ++ c.Version]) cs

/-- The outer loop of `compilePackageRelations` over the relations. -/
def appendRelationLines (relType : String) : List String → List PackageRelation → List String
  | lines, [] => lines
  | lines, rel :: rels =>
    if rel.Constraints.length = 0 then
      appendRelationLines relType (lines ++ [relType ++ " = " ++ rel.RelatedPackage]) rels
    else
      appendRelationLines relType (appendConstraintLines relType rel lines rel.Constraints) rels

/-- The Go function `compilePackageRelations`. -/
def compilePackageRelations (relType : String) (rels : List PackageRelation) : String :=
  if rels.length = 0 then ""
  else
    let lines := appendRelationLines relType [] rels
    stringsJoin lines "\n" ++ "\n"

/-- The lines the `.PKGINFO` format asks of one relation, in the words of the
specification: one line for a relation without constraints, one line for each
constraint otherwise. -/
def relationLines (relType : String) (rel : PackageRelation) : List String :=
  match rel.Constraints with
  | [] => [relType ++ " = " ++ rel.RelatedPackage]
  | cs => cs.map fun c => relType ++ " = " ++ rel.RelatedPackage ++ c.Relation ++ c.Version

/-- All lines of a list of relations, in input order. -/
def allRelationLines (relType : String) (rels : List PackageRelation) : List String :=
  (rels.map (relationLines relType)).flatten

/-- A text of newline-terminated lines. -/
def terminatedLines : List String → String
  | [] => ""
  | l :: ls => l ++ "\n" ++ terminatedLines ls

/-- How often a character occurs in a string. -/
def countChar (c : Char) (s : String) : Nat :=
  s.data.count c

/-! ## Sample environments -/

/-- A world with one symlink chain and an overlay program that answers its
input, reversed, on standard output. -/
def sampleWorld : World where
  ExecProgram := fun report stdin command _ =>
    if command = "/repo/20-site/etc/motd.holoscript" then
      { Output := stdin.reverse, Err := none, Report := report }
    else if command = "/repo/30-site/etc/motd.holoscript" then
      { Output := [], Err := some (.exitStatus 1),
        Report := { report with Lines := report.Lines ++ ["motd: cannot parse input"] } }
    else
      { Output := [], Err := some (.launchFailure ("exec: " ++ command ++ ": not found")),
        Report := report }
  NewFileBuffer := fun path basePath =>
    if path = "/repo/10-base/etc/motd" then
      (some { Path := path, BasePath := basePath, Mode := 420, OwnerUID := 0, OwnerGID := 0,
              Kind := .content [104, 105] }, none)
    else (none, some (.ioFailure ("open " ++ path ++ ": permission denied")))
  followSymlink := fun _ target =>
    if target = "motd.d/current" then
      .ok { Path := "/etc/motd.d/current", BasePath := "/etc/motd", Mode := 420,
            OwnerUID := 0, OwnerGID := 0, Kind := .content [72, 69, 76, 76, 79] }
    else .error (.ioFailure ("dangling symlink: " ++ target))
  rewriteDiffHeader := fun output _ => output

/-- A regular buffer for the target `/etc/motd`. -/
def regularBuffer : FileBuffer :=
  { Path := "/etc/motd", BasePath := "/etc/motd", Mode := 420, OwnerUID := 0, OwnerGID := 0,
    Kind := .content [1, 2, 3] }

/-- A symlink-valued buffer for the target `/etc/motd` whose chain ends in the
bytes of `HELLO`. -/
def symlinkBuffer : FileBuffer :=
  { Path := "/etc/motd", BasePath := "/etc/motd", Mode := 511, OwnerUID := 0, OwnerGID := 0,
    Kind := .symlink "motd.d/current" }

/-- A symlink-valued buffer whose target does not exist. -/
def danglingBuffer : FileBuffer :=
  { Path := "/etc/motd", BasePath := "/etc/motd", Mode := 511, OwnerUID := 0, OwnerGID := 0,
    Kind := .symlink "gone" }

/-- A report for applying `/etc/motd`. -/
def sampleReport : Report :=
  { Action := "apply", Target := "/etc/motd", Lines := [] }

/-- A passthru overlay whose program succeeds in `sampleWorld`. -/
def goodScript : RepoFile :=
  { Path := "/repo/20-site/etc/motd.holoscript", ApplicationStrategy := "passthru" }

/-- A passthru overlay whose program exits non-zero in `sampleWorld`. -/
def failingScript : RepoFile :=
  { Path := "/repo/30-site/etc/motd.holoscript", ApplicationStrategy := "passthru" }

/-- A replace overlay. -/
def plainFile : RepoFile :=
  { Path := "/repo/10-base/etc/motd", ApplicationStrategy := "apply" }

/-- A world whose programs answer with their own command line on standard
output and exit with status 1, as `diff` does when it finds differences; the
header of a diff is left as it is. -/
def echoWorld : World where
  ExecProgram := fun report stdin command arguments =>
    { Output := (String.intercalate " " (command :: arguments)).data.map Char.toNat ++ stdin,
      Err := some (.exitStatus 1), Report := report }
  NewFileBuffer := fun path _ => (none, some (.ioFailure ("open " ++ path ++ ": not found")))
  followSymlink := fun _ target => .error (.ioFailure ("dangling symlink: " ++ target))
  rewriteDiffHeader := fun output _ => output

/-- The world `w` with a different error result of `ExecProgram`, everything
else (standard output, report, file system) as in `w`. -/
def World.withExecError (w : World) (err : Option GoError) : World :=
  { w with ExecProgram := fun r i c a => { w.ExecProgram r i c a with Err := err } }

/-! ## Strategy dispatch -/

/-- C1: the function returned by `GetApplyImpl repoFile`, applied to a buffer and
a report, is `applyScript` when the strategy is exactly the string `passthru`
and `applyFile` for every other strategy, the empty string and the variant
`Passthru` among them. -/
theorem GetApplyImpl_dispatch (w : World) (repoFile : RepoFile) (fb : FileBuffer)
    (r : Report) :
    GetApplyImpl w repoFile fb r =
        (if repoFile.ApplicationStrategy = "passthru" then applyScript w repoFile fb r
         else applyFile w repoFile fb r) ∧
      (∀ path, GetApplyImpl w ⟨path, "passthru"⟩ fb r = applyScript w ⟨path, "passthru"⟩ fb r) ∧
      (∀ path, GetApplyImpl w ⟨path, ""⟩ fb r = applyFile w ⟨path, ""⟩ fb r) ∧
      (∀ path, GetApplyImpl w ⟨path, "Passthru"⟩ fb r = applyFile w ⟨path, "Passthru"⟩ fb r) := by
  refine ⟨?_, fun _ => rfl, fun _ => rfl, fun _ => rfl⟩
  unfold GetApplyImpl
  by_cases h : repoFile.ApplicationStrategy = "passthru" <;> simp [h]

/-! ## Script application -/

/-- C2: `applyScript` resolves the buffer first.  When resolution fails, that
error is returned with no buffer and no program is executed; when it succeeds,
exactly one program is executed and its standard input is the contents of the
resolved buffer. -/
theorem applyScript_resolves_first (w : World) (repoFile : RepoFile) (buffer : FileBuffer)
    (report : Report) :
    match buffer.ResolveSymlink w with
    | .error err =>
      (applyScript w repoFile buffer report).Buffer = none ∧
        (applyScript w repoFile buffer report).Err = some err ∧
        (applyScript w repoFile buffer report).Executed = []
    | .ok resolved =>
      (applyScript w repoFile buffer report).Executed.map Invocation.Stdin
        = [resolved.Contents] := by
  unfold applyScript
  cases h : buffer.ResolveSymlink w with
  | error err => simp
  | ok resolved =>
    simp only [World.run]
    cases (w.ExecProgram report resolved.Contents repoFile.Path []).Err <;> simp

/-- The test of the specification: a symlink buffer whose chain ends in the bytes
of `HELLO` is resolved, and the program receives exactly those bytes. -/
theorem applyScript_symlink_example :
    (applyScript sampleWorld goodScript symlinkBuffer sampleReport).Executed.map
        Invocation.Stdin = [[72, 69, 76, 76, 79]] ∧
      (applyScript sampleWorld goodScript symlinkBuffer sampleReport).Buffer =
        some (NewFileBufferFromContents [79, 76, 76, 69, 72] "/etc/motd") := by
  decide

/-- A dangling symlink buffer: the resolution error is returned and nothing is
executed. -/
theorem applyScript_dangling_example :
    applyScript sampleWorld goodScript danglingBuffer sampleReport =
      { Buffer := none, Err := some (.ioFailure "dangling symlink: gone"),
        Executed := [], Report := sampleReport } := by
  decide

/-- C3: when resolution succeeds, `applyScript` fails exactly when executing the
program fails, whether by a non-zero exit or by a launch failure; it then returns
no buffer and the error `execution of <path> failed: <underlying error>`. -/
theorem applyScript_fails_iff_exec_fails (w : World) (repoFile : RepoFile)
    (buffer resolved : FileBuffer) (report : Report)
    (hres : buffer.ResolveSymlink w = .ok resolved) :
    ((applyScript w repoFile buffer report).Err ≠ none ↔
        (w.ExecProgram report resolved.Contents repoFile.Path []).Err ≠ none) ∧
      (∀ err, (w.ExecProgram report resolved.Contents repoFile.Path []).Err = some err →
        (applyScript w repoFile buffer report).Buffer = none ∧
        (applyScript w repoFile buffer report).Err =
          some (.errorString ("execution of " ++ repoFile.Path ++ " failed: " ++ err.Error))) ∧
      ((w.ExecProgram report resolved.Contents repoFile.Path []).Err = none →
        (applyScript w repoFile buffer report).Buffer ≠ none) := by
  unfold applyScript
  rw [hres]
  simp only [World.run]
  cases h : (w.ExecProgram report resolved.Contents repoFile.Path []).Err <;> simp

/-- Witness of C3: in `sampleWorld` the program of `failingScript` exits with
status 1 on the resolved bytes of `symlinkBuffer`. -/
theorem applyScript_fails_iff_exec_fails_witness :
    (applyScript sampleWorld failingScript symlinkBuffer sampleReport).Buffer = none ∧
      (applyScript sampleWorld failingScript symlinkBuffer sampleReport).Err =
        some (.errorString
          "execution of /repo/30-site/etc/motd.holoscript failed: exit status 1") :=
  (applyScript_fails_iff_exec_fails sampleWorld failingScript symlinkBuffer
    { Path := "/etc/motd.d/current", BasePath := "/etc/motd", Mode := 420,
      OwnerUID := 0, OwnerGID := 0, Kind := .content [72, 69, 76, 76, 79] }
    sampleReport rfl).2.1 (.exitStatus 1) rfl

/-- C5: for a regular incoming buffer, resolution returns the buffer itself, and
when the program succeeds `applyScript` returns a nil error and the buffer
`NewFileBufferFromContents output buffer.BasePath`, whose bytes are the program's
standard output, whose base path is the incoming one, and which is not a
symlink. -/
theorem applyScript_wraps_output (w : World) (repoFile : RepoFile) (buffer : FileBuffer)
    (report : Report) (bytes : Bytes) (hreg : buffer.Kind = .content bytes)
    (hok : (w.ExecProgram report buffer.Contents repoFile.Path []).Err = none) :
    buffer.ResolveSymlink w = .ok buffer ∧
      (applyScript w repoFile buffer report).Err = none ∧
      (applyScript w repoFile buffer report).Buffer =
        some (NewFileBufferFromContents
          (w.ExecProgram report buffer.Contents repoFile.Path []).Output buffer.BasePath) ∧
      (∀ out, (applyScript w repoFile buffer report).Buffer = some out →
        out.Contents = (w.ExecProgram report buffer.Contents repoFile.Path []).Output ∧
        out.BasePath = buffer.BasePath ∧
        out.IsSymlink = false ∧
        out.Kind = .content (w.ExecProgram report buffer.Contents repoFile.Path []).Output) := by
  have hres : buffer.ResolveSymlink w = .ok buffer := by
    simp [FileBuffer.ResolveSymlink, hreg]
  have happly : applyScript w repoFile buffer report =
      { Buffer := some (NewFileBufferFromContents
          (w.ExecProgram report buffer.Contents repoFile.Path []).Output buffer.BasePath),
        Err := none,
        Executed := [{ Stdin := buffer.Contents, Command := repoFile.Path, Arguments := [] }],
        Report := (w.ExecProgram report buffer.Contents repoFile.Path []).Report } := by
    unfold applyScript
    rw [hres]
    simp only [World.run, hok]
  refine ⟨hres, by rw [happly], by rw [happly], ?_⟩
  intro out hout
  rw [happly] at hout
  simp only [Option.some.injEq] at hout
  subst hout
  simp [NewFileBufferFromContents, FileBuffer.Contents, FileBuffer.IsSymlink]

/-- Witness of C5: `goodScript` applied to `regularBuffer` in `sampleWorld`
returns the reversed bytes as regular content. -/
theorem applyScript_wraps_output_witness :
    (applyScript sampleWorld goodScript regularBuffer sampleReport).Err = none ∧
      (applyScript sampleWorld goodScript regularBuffer sampleReport).Buffer =
        some (NewFileBufferFromContents [3, 2, 1] "/etc/motd") :=
  let h := applyScript_wraps_output sampleWorld goodScript regularBuffer sampleReport
    [1, 2, 3] rfl rfl
  ⟨h.2.1, h.2.2.1⟩

/-! ## Replacement -/

/-- C4: `applyFile` returns `NewFileBuffer(repoFile.Path(), b.BasePath)` and
executes nothing; two incoming buffers with the same base path give the same
result whatever their contents, symlink state, metadata and report, so the result
is the one for a fresh empty buffer with that base path. -/
theorem applyFile_ignores_buffer (w : World) (repoFile : RepoFile) (b b' : FileBuffer)
    (report report' : Report) (hbase : b.BasePath = b'.BasePath) :
    ((applyFile w repoFile b report).Buffer, (applyFile w repoFile b report).Err)
        = w.NewFileBuffer repoFile.Path b.BasePath ∧
      (applyFile w repoFile b report).Executed = [] ∧
      (applyFile w repoFile b report).Buffer = (applyFile w repoFile b' report').Buffer ∧
      (applyFile w repoFile b report).Err = (applyFile w repoFile b' report').Err ∧
      (applyFile w repoFile b report).Buffer =
        (applyFile w repoFile (NewFileBufferFromContents [] b.BasePath) report').Buffer ∧
      (applyFile w repoFile b report).Err =
        (applyFile w repoFile (NewFileBufferFromContents [] b.BasePath) report').Err := by
  simp [applyFile, hbase, NewFileBufferFromContents]

/-- Witness of C4: a symlink buffer and a regular buffer for `/etc/motd`, with
different reports, are replaced by the same buffer. -/
theorem applyFile_ignores_buffer_witness :
    symlinkBuffer.BasePath = regularBuffer.BasePath ∧
      (applyFile sampleWorld plainFile symlinkBuffer sampleReport).Buffer =
        (applyFile sampleWorld plainFile regularBuffer ⟨"diff", "/etc/motd", ["x"]⟩).Buffer :=
  ⟨rfl, (applyFile_ignores_buffer sampleWorld plainFile symlinkBuffer regularBuffer
    sampleReport ⟨"diff", "/etc/motd", ["x"]⟩ rfl).2.2.1⟩

/-! ## The invocation of the overlay program -/

/-- C8 as stated fails: `goodScript` is executed with an empty argument list, not
with the list that holds its own path. -/
theorem applyScript_arguments_counterexample :
    (applyScript sampleWorld goodScript regularBuffer sampleReport).Executed.map
        Invocation.Arguments = [[]] ∧
      (applyScript sampleWorld goodScript regularBuffer sampleReport).Executed.map
        Invocation.Arguments ≠ [[goodScript.Path]] := by
  decide

/-- C8, amended: when resolution succeeds `applyScript` executes exactly one
program; its command is `repoFile.Path()`, its argument list is empty, and its
standard input is the contents of the resolved buffer. -/
theorem applyScript_invocation (w : World) (repoFile : RepoFile)
    (buffer resolved : FileBuffer) (report : Report)
    (hres : buffer.ResolveSymlink w = .ok resolved) :
    (applyScript w repoFile buffer report).Executed =
      [{ Stdin := resolved.Contents, Command := repoFile.Path, Arguments := [] }] := by
  unfold applyScript
  rw [hres]
  simp only [World.run]
  cases (w.ExecProgram report resolved.Contents repoFile.Path []).Err <;> rfl

/-- Witness of the amended C8: the invocation of `goodScript` on the resolved
`symlinkBuffer`. -/
theorem applyScript_invocation_witness :
    (applyScript sampleWorld goodScript symlinkBuffer sampleReport).Executed =
      [{ Stdin := [72, 69, 76, 76, 79], Command := "/repo/20-site/etc/motd.holoscript",
         Arguments := [] }] :=
  applyScript_invocation sampleWorld goodScript symlinkBuffer
    { Path := "/etc/motd.d/current", BasePath := "/etc/motd", Mode := 420,
      OwnerUID := 0, OwnerGID := 0, Kind := .content [72, 69, 76, 76, 79] }
    sampleReport rfl

/-! ## Diff invocation -/

/-- C6: `getDiffBody` executes exactly the program `diff` with the arguments
`-u fromPath toPath` and an empty standard input, and what it returns and prints
is what that call gave back.  For a missing "from" side the renderer is the call
`getDiffBody("/dev/null", toPath, reportedPath)` after the header, so the tool
gets `/dev/null` as the first path and the real path as the second; for a removed
"to" side it is `getDiffBody(fromPath, "/dev/null", reportedPath)`, the real path
first and `/dev/null` second; otherwise both real paths are passed. -/
theorem getDiffBody_invocation (w : World) (header : Bytes)
    (fromPath toPath reportedPath : String) :
    getDiffBody w fromPath toPath reportedPath =
        { Body := w.rewriteDiffHeader
            (w.ExecProgram ⟨"diff", toPath, []⟩ [] "diff" ["-u", fromPath, toPath]).Output
            reportedPath,
          Executed := [{ Stdin := [], Command := "diff",
                         Arguments := ["-u", fromPath, toPath] }],
          Printed :=
            (w.ExecProgram ⟨"diff", toPath, []⟩ [] "diff"
              ["-u", fromPath, toPath]).Report.PrintUnlessEmpty } ∧
      diffOfCreatedFile w header toPath reportedPath =
        { Body := header ++ (getDiffBody w "/dev/null" toPath reportedPath).Body,
          Executed := (getDiffBody w "/dev/null" toPath reportedPath).Executed,
          Printed := (getDiffBody w "/dev/null" toPath reportedPath).Printed } ∧
      diffOfRemovedFile w header fromPath reportedPath =
        { Body := header ++ (getDiffBody w fromPath "/dev/null" reportedPath).Body,
          Executed := (getDiffBody w fromPath "/dev/null" reportedPath).Executed,
          Printed := (getDiffBody w fromPath "/dev/null" reportedPath).Printed } ∧
      renderDiffBody w .fromMissing header fromPath toPath reportedPath =
        { Body := header ++ w.rewriteDiffHeader
            (w.ExecProgram ⟨"diff", toPath, []⟩ [] "diff" ["-u", "/dev/null", toPath]).Output
            reportedPath,
          Executed := [{ Stdin := [], Command := "diff",
                         Arguments := ["-u", "/dev/null", toPath] }],
          Printed :=
            (w.ExecProgram ⟨"diff", toPath, []⟩ [] "diff"
              ["-u", "/dev/null", toPath]).Report.PrintUnlessEmpty } ∧
      renderDiffBody w .toRemoved header fromPath toPath reportedPath =
        { Body := header ++ w.rewriteDiffHeader
            (w.ExecProgram ⟨"diff", "/dev/null", []⟩ [] "diff"
              ["-u", fromPath, "/dev/null"]).Output
            reportedPath,
          Executed := [{ Stdin := [], Command := "diff",
                         Arguments := ["-u", fromPath, "/dev/null"] }],
          Printed :=
            (w.ExecProgram ⟨"diff", "/dev/null", []⟩ [] "diff"
              ["-u", fromPath, "/dev/null"]).Report.PrintUnlessEmpty } ∧
      renderDiffBody w .bothPresent header fromPath toPath reportedPath =
        { Body := header ++ (getDiffBody w fromPath toPath reportedPath).Body,
          Executed := [{ Stdin := [], Command := "diff",
                         Arguments := ["-u", fromPath, toPath] }],
          Printed := (getDiffBody w fromPath toPath reportedPath).Printed } := by
  refine ⟨?_, ?_, ?_, ?_, ?_, ?_⟩
  · simp only [getDiffBody, World.run]
  · simp only [diffOfCreatedFile]
  · simp only [diffOfRemovedFile]
  · simp only [renderDiffBody, diffOfCreatedFile, getDiffBody, World.run]
  · simp only [renderDiffBody, diffOfRemovedFile, getDiffBody, World.run]
  · simp only [renderDiffBody, getDiffBody, World.run]

/-- The null-baseline test of the specification, with a diff tool that answers
its own command line: for a missing "from" side the tool is started as
`diff -u /dev/null /etc/motd`, for a removed "to" side as
`diff -u /var/lib/holo/provisioned/etc/motd /dev/null`, and its answer comes back
after the header. -/
theorem renderDiffBody_null_device_example :
    (renderDiffBody echoWorld .fromMissing [35, 10]
        "/var/lib/holo/provisioned/etc/motd" "/etc/motd" "/etc/motd").Body =
        [35, 10] ++ "diff -u /dev/null /etc/motd".data.map Char.toNat ∧
      (renderDiffBody echoWorld .toRemoved [35, 10]
        "/var/lib/holo/provisioned/etc/motd" "/etc/motd" "/etc/motd").Body =
        [35, 10] ++
          "diff -u /var/lib/holo/provisioned/etc/motd /dev/null".data.map Char.toNat ∧
      (getDiffBody echoWorld "/var/lib/holo/provisioned/etc/motd" "/etc/motd"
        "/etc/motd").Body =
        "diff -u /var/lib/holo/provisioned/etc/motd /etc/motd".data.map Char.toNat := by
  decide

/-- C7 as stated fails: in `sampleWorld` the diff tool cannot be launched, and
`getDiffBody` hands its caller the same value as in the world where the tool ran
and exited zero; so nothing the caller receives tells a launch failure apart. -/
theorem getDiffBody_launch_failure_counterexample :
    ((sampleWorld.ExecProgram ⟨"diff", "/etc/motd", []⟩ [] "diff"
        ["-u", "/var/lib/holo/provisioned/etc/motd", "/etc/motd"]).Err =
        some (.launchFailure "exec: diff: not found") ∧
      getDiffBody sampleWorld "/var/lib/holo/provisioned/etc/motd" "/etc/motd" "/etc/motd" =
        getDiffBody (sampleWorld.withExecError none)
          "/var/lib/holo/provisioned/etc/motd" "/etc/motd" "/etc/motd") ∧
      ¬ ∃ reportsError : DiffOutcome → Bool,
        ∀ (w : World) (fromPath toPath reportedPath : String),
          reportsError (getDiffBody w fromPath toPath reportedPath) = true ↔
            ∃ reason, (w.ExecProgram ⟨"diff", toPath, []⟩ [] "diff"
              ["-u", fromPath, toPath]).Err = some (.launchFailure reason) := by
  refine ⟨⟨by decide, by decide⟩, ?_⟩
  rintro ⟨reportsError, h⟩
  have h1 := (h sampleWorld "/a" "/b" "/b").2 ⟨_, rfl⟩
  have h2 := (h (sampleWorld.withExecError none) "/a" "/b" "/b").1 h1
  obtain ⟨reason, hr⟩ := h2
  simp [World.withExecError] at hr

/-- C7, amended: `getDiffBody` reports no error to its caller.  The error result
of `ExecProgram`, be it nil, a non-zero exit or a launch failure, is discarded:
the bytes returned, the program executed and the report printed are the same
whatever that error is. -/
theorem getDiffBody_discards_error (w : World) (err : Option GoError)
    (fromPath toPath reportedPath : String) :
    getDiffBody (w.withExecError err) fromPath toPath reportedPath =
        getDiffBody w fromPath toPath reportedPath ∧
      (getDiffBody w fromPath toPath reportedPath).Body =
        w.rewriteDiffHeader
          (w.ExecProgram ⟨"diff", toPath, []⟩ [] "diff" ["-u", fromPath, toPath]).Output
          reportedPath :=
  ⟨rfl, rfl⟩

/-! ## Pacman version string -/

/-- A decimal digit is never a dash. -/
theorem digitChar_ne_dash : ∀ d < 10, Nat.digitChar d ≠ '-' := by
  decide

/-- The digit loop of the decimal rendering adds no dash. -/
theorem toDigitsCore_no_dash (fuel : Nat) : ∀ (n : Nat) (ds : List Char),
    (∀ c ∈ ds, c ≠ '-') → ∀ c ∈ Nat.toDigitsCore 10 fuel n ds, c ≠ '-' := by
  induction fuel with
  | zero => intro n ds h; simpa [Nat.toDigitsCore] using h
  | succ fuel ih =>
    intro n ds h
    simp only [Nat.toDigitsCore]
    have hcons : ∀ c ∈ Nat.digitChar (n % 10) :: ds, c ≠ '-' := by
      intro c hc
      rcases List.mem_cons.1 hc with rfl | hc
      · exact digitChar_ne_dash _ (Nat.mod_lt _ (by decide))
      · exact h c hc
    split
    · exact hcons
    · exact ih _ _ hcons

/-- The decimal digits of a natural number hold no dash. -/
theorem toDigits_count_dash (n : Nat) : (Nat.toDigits 10 n).count '-' = 0 := by
  rw [List.count_eq_zero]
  intro hmem
  exact toDigitsCore_no_dash _ _ [] (by simp) _ hmem rfl

/-- The rendering of a non-negative integer holds no dash. -/
theorem formatDecimal_count_dash (n : Int) (h : 0 ≤ n) :
    countChar '-' (formatDecimal n) = 0 := by
  unfold formatDecimal countChar
  rw [if_neg (not_lt.2 h)]
  exact toDigits_count_dash _

/-- Replacing the one-character string `-` by `_` maps each character on its
own. -/
theorem replaceScan_dash (cs : List Char) :
    replaceScan ['-'] ['_'] 0 cs = cs.map fun c => if c = '-' then '_' else c := by
  induction cs with
  | nil => simp [replaceScan]
  | cons c cs ih =>
    by_cases hc : c = '-'
    · subst hc
      simp [replaceScan, ih]
    · have hc' : ¬ '-' = c := fun h => hc h.symm
      simp [replaceScan, ih, hc, hc']

/-- After the replacement no dash is left. -/
theorem map_dash_count (cs : List Char) :
    (cs.map fun c => if c = '-' then '_' else c).count '-' = 0 := by
  rw [List.count_eq_zero]
  intro hmem
  obtain ⟨c, _, hc⟩ := List.mem_map.1 hmem
  by_cases h : c = '-'
  · rw [if_pos h] at hc
    exact absurd hc (by decide)
  · rw [if_neg h] at hc
    exact h hc

/-- Counting a character distributes over concatenation. -/
theorem countChar_append (c : Char) (s t : String) :
    countChar c (s ++ t) = countChar c s + countChar c t := by
  simp [countChar, String.data_append]

/-- C9: for non-negative release and epoch, `fullVersionString` is
`<V>-<Release>`, with `V` the version in which every dash is an underscore, after
`<Epoch>:` exactly when the epoch is positive; `V` holds no dash and the result
holds exactly one. -/
theorem fullVersionString_shape (pkg : Package) (hrel : 0 ≤ pkg.Release)
    (hepoch : 0 ≤ pkg.Epoch) :
    fullVersionString pkg =
        (if pkg.Epoch > 0 then formatDecimal pkg.Epoch ++ ":" else "") ++
          (stringsReplaceAll pkg.Version "-" "_" ++ "-" ++ formatDecimal pkg.Release) ∧
      (stringsReplaceAll pkg.Version "-" "_").data =
        pkg.Version.data.map (fun c => if c = '-' then '_' else c) ∧
      countChar '-' (stringsReplaceAll pkg.Version "-" "_") = 0 ∧
      countChar '-' (fullVersionString pkg) = 1 := by
  have hdata : (stringsReplaceAll pkg.Version "-" "_").data =
      pkg.Version.data.map (fun c => if c = '-' then '_' else c) := by
    show replaceScan ['-'] ['_'] 0 pkg.Version.data = _
    exact replaceScan_dash _
  have hV : countChar '-' (stringsReplaceAll pkg.Version "-" "_") = 0 := by
    unfold countChar
    rw [hdata]
    exact map_dash_count _
  have hstr : countChar '-'
      (stringsReplaceAll pkg.Version "-" "_" ++ "-" ++ formatDecimal pkg.Release) = 1 := by
    rw [countChar_append, countChar_append, hV, formatDecimal_count_dash _ hrel]
    rfl
  refine ⟨?_, hdata, hV, ?_⟩
  · unfold fullVersionString
    by_cases h : pkg.Epoch > 0
    · simp only [if_pos h, String.append_assoc]
    · simp only [if_neg h, String.empty_append]
  · unfold fullVersionString
    by_cases h : pkg.Epoch > 0
    · simp only [if_pos h]
      rw [countChar_append, countChar_append, hstr, formatDecimal_count_dash _ hepoch]
      rfl
    · simp only [if_neg h]
      exact hstr

/-- Witness of C9: version `1.0-rc-1`, release 3, epoch 2. -/
theorem fullVersionString_shape_witness :
    fullVersionString ⟨"holo", "1.0-rc-1", 3, 2, [], [], [], []⟩ = "2:1.0_rc_1-3" ∧
      countChar '-' (fullVersionString ⟨"holo", "1.0-rc-1", 3, 2, [], [], [], []⟩) = 1 :=
  ⟨by decide,
    (fullVersionString_shape ⟨"holo", "1.0-rc-1", 3, 2, [], [], [], []⟩
      (by decide) (by decide)).2.2.2⟩

/-! ## Pacman package relations -/

/-- The inner loop appends the mapped constraints. -/
theorem appendConstraintLines_eq (relType : String) (rel : PackageRelation)
    (cs : List VersionConstraint) : ∀ lines : List String,
    appendConstraintLines relType rel lines cs =
      lines ++ cs.map fun c =>
        relType ++ " = " ++ rel.RelatedPackage ++ c.Relation ++ c.Version := by
  induction cs with
  | nil => intro lines; simp [appendConstraintLines]
  | cons c cs ih => intro lines; simp [appendConstraintLines, ih]

/-- The outer loop appends the lines of every relation, in order. -/
theorem appendRelationLines_eq (relType : String) (rels : List PackageRelation) :
    ∀ lines : List String,
    appendRelationLines relType lines rels = lines ++ allRelationLines relType rels := by
  induction rels with
  | nil => intro lines; simp [appendRelationLines, allRelationLines]
  | cons rel rels ih =>
    intro lines
    have hall : allRelationLines relType (rel :: rels) =
        relationLines relType rel ++ allRelationLines relType rels := by
      simp [allRelationLines]
    rw [hall]
    unfold appendRelationLines
    cases hc : rel.Constraints with
    | nil => simp [ih, relationLines, hc]
    | cons c cs =>
      simp [ih, relationLines, hc, appendConstraintLines_eq]

/-- Joining non-empty lines with newlines and adding a final newline terminates
each line. -/
theorem stringsJoin_newline (l : String) (ls : List String) :
    stringsJoin (l :: ls) "\n" ++ "\n" = terminatedLines (l :: ls) := by
  induction ls generalizing l with
  | nil => simp [stringsJoin, terminatedLines]
  | cons m ms ih =>
    simp only [stringsJoin, terminatedLines, String.append_assoc]
    rw [ih m]
    simp only [terminatedLines, String.append_assoc]

/-- A relation yields as many lines as it has constraints, and one if it has
none. -/
theorem relationLines_length (relType : String) (rel : PackageRelation) :
    (relationLines relType rel).length = max 1 rel.Constraints.length := by
  unfold relationLines
  cases rel.Constraints with
  | nil => rfl
  | cons c cs => simp

/-- C10: `compilePackageRelations` returns the empty string for no relations,
and in every case the newline-terminated lines of the relations in input order:
`<relType> = <package>` for a relation without constraints and
`<relType> = <package><relation><version>` for each constraint otherwise; the
number of lines is the sum over the relations of `max 1 (number of constraints)`. -/
theorem compilePackageRelations_lines (relType : String) (rels : List PackageRelation) :
    compilePackageRelations relType [] = "" ∧
      compilePackageRelations relType rels =
        terminatedLines (allRelationLines relType rels) ∧
      (∀ rel, rel.Constraints = [] →
        relationLines relType rel = [relType ++ " = " ++ rel.RelatedPackage]) ∧
      (∀ rel, rel.Constraints ≠ [] →
        relationLines relType rel = rel.Constraints.map fun c =>
          relType ++ " = " ++ rel.RelatedPackage ++ c.Relation ++ c.Version) ∧
      (allRelationLines relType rels).length =
        (rels.map fun rel => max 1 rel.Constraints.length).sum := by
  refine ⟨rfl, ?_, ?_, ?_, ?_⟩
  · cases rels with
    | nil => rfl
    | cons rel rels =>
      have hne : allRelationLines relType (rel :: rels) ≠ [] := by
        intro h
        have hall : allRelationLines relType (rel :: rels) =
            relationLines relType rel ++ allRelationLines relType rels := by
          simp [allRelationLines]
        have hlen := congrArg List.length h
        rw [hall, List.length_append, relationLines_length, List.length_nil] at hlen
        omega
      unfold compilePackageRelations
      simp only [List.length_cons, Nat.succ_ne_zero, if_false]
      rw [appendRelationLines_eq, List.nil_append]
      cases hl : allRelationLines relType (rel :: rels) with
      | nil => exact absurd hl hne
      | cons l ls => exact stringsJoin_newline l ls
  · intro rel h
    simp [relationLines, h]
  · intro rel h
    unfold relationLines
    cases hc : rel.Constraints with
    | nil => exact absurd hc h
    | cons c cs => rfl
  · induction rels with
    | nil => rfl
    | cons rel rels ih =>
      have hall : allRelationLines relType (rel :: rels) =
          relationLines relType rel ++ allRelationLines relType rels := by
        simp [allRelationLines]
      rw [hall, List.length_append, ih, relationLines_length]
      simp

/-- Witness of C10: a relation without constraints and one with two. -/
theorem compilePackageRelations_lines_witness :
    compilePackageRelations "depend"
        [⟨"linux", []⟩, ⟨"holo", [⟨"<", "0.5"⟩, ⟨">=", "0.2"⟩]⟩] =
      "depend = linux\ndepend = holo<0.5\ndepend = holo>=0.2\n" ∧
      relationLines "depend" ⟨"linux", []⟩ = ["depend = linux"] :=
  ⟨(compilePackageRelations_lines "depend"
      [⟨"linux", []⟩, ⟨"holo", [⟨"<", "0.5"⟩, ⟨">=", "0.2"⟩]⟩]).2.1.trans (by decide),
    (compilePackageRelations_lines "depend"
      [⟨"linux", []⟩, ⟨"holo", [⟨"<", "0.5"⟩, ⟨">=", "0.2"⟩]⟩]).2.2.1 ⟨"linux", []⟩ rfl⟩

end Holo
